import Mathlib

/-!
# Verification of the CodeGenesis git branch-topology orchestrator

Shallow embedding of the git workflow code of the CodeGenesis repository
(`src/git_manager.py`, `src/gui.py`, `src/file_creator.py`,
`src/github_manager.py`) together with theorems settling the frozen claims
about its specification.

The embedding has two levels, mirroring the two levels of the source:

* a subprocess level (`CodeGenesis.Proc`) modelling
  `GitManager.run_command` exactly as written: `shlex` tokenization of
  string commands, `subprocess.run(check=True)`, and the single
  `except subprocess.CalledProcessError` clause;
* a repository-state level modelling the git commands the manager issues
  (`git init`, `git checkout`, `git checkout -b`, `git add .`,
  `git commit`, `git remote add origin`, `git fetch origin`,
  `git push origin`, `git merge`) as a deterministic transition function
  on an explicit repository state, instrumented with the trace of issued
  commands so that ordering and skipping claims can be stated.
-/

namespace CodeGenesis

namespace Proc

/-- Python exceptions relevant to `GitManager.run_command`
(src/git_manager.py lines 11-29). -/
inductive PyExn
  | valueError (msg : String)
  | fileNotFoundError
  | calledProcessError
deriving DecidableEq

/-- Outcome of `subprocess.run` on a tokenized argument vector: the external
process exits with a code, or the executable cannot be found
(`FileNotFoundError`). -/
inductive SpawnOutcome
  | exits (code : Nat)
  | execMissing
deriving DecidableEq

/-- The double-quote character. -/
def dq : Char := Char.ofNat 34

/-- The single-quote character. -/
def sq : Char := Char.ofNat 39

/-- The backslash character. -/
def bsl : Char := Char.ofNat 92

/-- Lexer mode of `shlex` (posix mode, `whitespace_split=True`): outside
quotes, inside double quotes, or inside single quotes. -/
inductive ShMode
  | norm
  | dquo
  | squo
deriving DecidableEq

/-- Append the token under construction (if any) to the accumulator. -/
def flushTok : Option (List Char) → List String → List String
  | none, acc => acc
  | some t, acc => acc ++ [String.mk t]

/-- Character-level model of `shlex.split` in posix mode with whitespace
splitting, as invoked by `GitManager.run_command` on string commands:
whitespace separates tokens, double/single quotes group, backslash escapes,
and an unterminated quote or trailing escape raises `ValueError`. -/
def shSplit : List Char → ShMode → Option (List Char) → List String →
    Except PyExn (List String)
  | [], .norm, cur, acc => .ok (flushTok cur acc)
  | [], .dquo, _, _ => .error (.valueError ("No closing quotation"))
  | [], .squo, _, _ => .error (.valueError ("No closing quotation"))
  | c :: rest, .norm, cur, acc =>
    if c = ' ' ∨ c = Char.ofNat 9 ∨ c = Char.ofNat 10 ∨ c = Char.ofNat 13 then
      shSplit rest .norm none (flushTok cur acc)
    else if c = dq then
      shSplit rest .dquo (some (cur.getD [])) acc
    else if c = sq then
      shSplit rest .squo (some (cur.getD [])) acc
    else if c = bsl then
      match rest with
      | [] => .error (.valueError ("No escaped character"))
      | d :: rest2 => shSplit rest2 .norm (some ((cur.getD []) ++ [d])) acc
    else
      shSplit rest .norm (some ((cur.getD []) ++ [c])) acc
  | c :: rest, .dquo, cur, acc =>
    if c = dq then
      shSplit rest .norm (some (cur.getD [])) acc
    else if c = bsl then
      match rest with
      | [] => .error (.valueError ("No escaped character"))
      | d :: rest2 =>
        if d = dq ∨ d = bsl then
          shSplit rest2 .dquo (some ((cur.getD []) ++ [d])) acc
        else
          shSplit rest2 .dquo (some ((cur.getD []) ++ [bsl, d])) acc
    else
      shSplit rest .dquo (some ((cur.getD []) ++ [c])) acc
  | c :: rest, .squo, cur, acc =>
    if c = sq then
      shSplit rest .norm (some (cur.getD [])) acc
    else
      shSplit rest .squo (some ((cur.getD []) ++ [c])) acc

/-- `shlex.split` on a whole string. -/
def shlex_split (s : String) : Except PyExn (List String) :=
  shSplit s.data .norm none []

/-- A command as passed to `GitManager.run_command`: either a raw string
(the usual case in `git_manager.py`) or an already-tokenized list. -/
inductive PyCmd
  | str (s : String)
  | args (a : List String)

/-- The `isinstance(command, str)` branch of `run_command`: string commands
go through `shlex.split`, list commands are used as-is. -/
def pyTokens : PyCmd → Except PyExn (List String)
  | .str s => shlex_split s
  | .args a => .ok a

/-- Subprocess-level model of `GitManager.run_command`
(src/git_manager.py lines 11-29): tokenize, spawn with `check=True`,
return `True` on exit 0; `subprocess.CalledProcessError` (nonzero exit) is
caught and yields `False`; any other exception — `ValueError` from
`shlex.split`, `FileNotFoundError` from `subprocess.run` — propagates. -/
def run_command (spawn : List String → SpawnOutcome) (cmd : PyCmd) :
    Except PyExn Bool :=
  match pyTokens cmd with
  | .error e => .error e
  | .ok toks =>
    match spawn toks with
    | .exits 0 => .ok true
    | .exits (_ + 1) => .ok false
    | .execMissing => .error .fileNotFoundError

/-- The command string built by `GitManager.commit_changes`
(src/git_manager.py lines 69-73): `git commit -m "<message>"`, optionally
followed by ` --allow-empty`; the message is interpolated between literal
double quotes with no escaping. -/
def commit_cmd (message : String) (allow_empty : Bool) : String :=
  ("git commit -m " ++ String.mk [dq] ++ message ++ String.mk [dq]) ++
    (if allow_empty then " --allow-empty" else "")

end Proc

/-! ## Repository-state model of the git commands issued by `GitManager` -/

/-- The git commands issued by `GitManager` (src/git_manager.py), one
constructor per distinct command shape appearing in the source. -/
inductive GitCmd
  | init
  | checkout (b : String)
  | checkoutNew (b : String)
  | addAll
  | commit (msg : String) (allow_empty : Bool)
  | remoteAdd (url : String)
  | fetchOrigin
  | push (b : String) (force : Bool)
  | merge (b : String)
deriving DecidableEq

/-- State of the local repository and its optional remote binding.
`tracked` maps each branch name to the list of project files committed on
it; `untracked` are working-directory files not yet staged; `staged` is
the index; `remote` is the URL bound to `origin`, if any. -/
structure RepoState where
  initialized : Bool
  branches : List String
  current : Option String
  tracked : List (String × List String)
  untracked : List String
  staged : List String
  remote : Option String
deriving DecidableEq

/-- Replace (or add) the tracked-file entry of one branch. -/
def setTracked (b : String) (v : List String) :
    List (String × List String) → List (String × List String)
  | [] => [(b, v)]
  | (k, w) :: rest =>
    if k = b then (b, v) :: rest else (k, w) :: setTracked b v rest

/-- Files committed on branch `b` (empty when the branch has no entry). -/
def trackedOf (s : RepoState) (b : String) : List String :=
  (s.tracked.lookup b).getD []

/-- Files committed on the currently checked-out branch. -/
def trackedOfCur (s : RepoState) : List String :=
  match s.current with
  | some c => trackedOf s c
  | none => []

/-- Semantics of a single git command: success flag and successor state.
A failing command leaves the state unchanged.  `git init` re-initializes
an existing repository successfully; `git checkout -b` fails when the
branch already exists; a plain `git commit` fails with nothing staged
unless `--allow-empty` is given; `git remote add origin` fails when a
remote is already bound; `git push origin`/`git fetch origin` fail when no
remote binding exists; `git merge b` unions the committed files of `b`
into the current branch. -/
def runCmd : GitCmd → RepoState → Bool × RepoState
  | .init, s => (true, { s with initialized := true })
  | .checkout b, s =>
    if s.initialized = true ∧ b ∈ s.branches then
      (true, { s with current := some b })
    else (false, s)
  | .checkoutNew b, s =>
    if s.initialized = true ∧ b ∉ s.branches then
      (true, { s with branches := s.branches ++ [b],
                      tracked := setTracked b (trackedOfCur s) s.tracked,
                      current := some b })
    else (false, s)
  | .addAll, s =>
    if s.initialized = true then
      (true, { s with staged := s.staged ++ s.untracked, untracked := [] })
    else (false, s)
  | .commit _ allow_empty, s =>
    match s.current with
    | some b =>
      if s.initialized = true ∧ (allow_empty = true ∨ s.staged ≠ []) then
        (true, { s with tracked := setTracked b (trackedOf s b ++ s.staged) s.tracked,
                        staged := [] })
      else (false, s)
    | none => (false, s)
  | .remoteAdd u, s =>
    if s.initialized = true ∧ s.remote = none then
      (true, { s with remote := some u })
    else (false, s)
  | .fetchOrigin, s =>
    if s.initialized = true ∧ s.remote ≠ none then (true, s) else (false, s)
  | .push b _, s =>
    if s.initialized = true ∧ s.remote ≠ none ∧ b ∈ s.branches then
      (true, s)
    else (false, s)
  | .merge b, s =>
    match s.current with
    | some c =>
      if s.initialized = true ∧ b ∈ s.branches then
        (true, { s with tracked := setTracked c (trackedOf s c ++ trackedOf s b) s.tracked })
      else (false, s)
    | none => (false, s)

/-- Result of running a `GitManager` method: overall boolean result, final
repository state, and the trace of git commands actually issued (the
failing command, if any, included). -/
structure ExecResult where
  ok : Bool
  state : RepoState
  trace : List GitCmd
deriving DecidableEq

/-- Sequencing mirroring Python `if not step(): return False`: when `r`
failed, the continuation is never run and no further command is issued. -/
def andThen (r : ExecResult) (k : RepoState → ExecResult) : ExecResult :=
  if r.ok then
    let r2 := k r.state
    ⟨r2.ok, r2.state, r.trace ++ r2.trace⟩
  else r

/-- State-level view of `GitManager.run_command`: issue one git command,
record it in the trace, and report its success flag. -/
def run_command (c : GitCmd) (s : RepoState) : ExecResult :=
  let p := runCmd c s
  ⟨p.1, p.2, [c]⟩

/-- Run a list of git commands in order, stopping at the first failure
(the failing command is the last one issued). -/
def execSeq : List GitCmd → RepoState → ExecResult
  | [], s => ⟨true, s, []⟩
  | c :: cs, s =>
    let p := runCmd c s
    if p.1 then
      let r := execSeq cs p.2
      ⟨r.ok, r.state, c :: r.trace⟩
    else ⟨false, p.2, [c]⟩

/-! ## `GitManager` methods (src/git_manager.py) -/

/-- `GitManager.initialize_repo` (line 31): `git init`. -/
def initialize_repo (s : RepoState) : ExecResult :=
  run_command .init s

/-- `GitManager.set_remote` (line 34): `git remote add origin <url>`. -/
def set_remote (url : String) (s : RepoState) : ExecResult :=
  run_command (.remoteAdd url) s

/-- `GitManager.fetch_remote` (line 37): `git fetch origin`. -/
def fetch_remote (s : RepoState) : ExecResult :=
  run_command .fetchOrigin s

/-- `GitManager.add_files` (line 66): `git add .`. -/
def add_files (s : RepoState) : ExecResult :=
  run_command .addAll s

/-- `GitManager.commit_changes` (lines 69-73): `git commit -m "<msg>"`,
with `--allow-empty` when requested. -/
def commit_changes (message : String) (allow_empty : Bool) (s : RepoState) :
    ExecResult :=
  run_command (.commit message allow_empty) s

/-- `GitManager.push_branch` (lines 75-79): `git push origin <branch>`,
with `--force` when requested. -/
def push_branch (branch_name : String) (force : Bool) (s : RepoState) :
    ExecResult :=
  run_command (.push branch_name force) s

/-- The `for feature_branch in feature_branches` loop of
`GitManager.setup_branches` (lines 57-61): for each feature branch,
checkout dev then create-and-checkout the feature branch. -/
def setup_branches_loop (dev_branch : String) :
    List String → RepoState → ExecResult
  | [], s => ⟨true, s, []⟩
  | f :: rest, s =>
    andThen (run_command (.checkout dev_branch) s) fun s1 =>
    andThen (run_command (.checkoutNew f) s1) fun s2 =>
    setup_branches_loop dev_branch rest s2

/-- `GitManager.setup_branches` (lines 40-64), translated step for step:
checkout main; create dev; checkout main; create staging; empty commit on
staging; push staging (unconditionally — the source has no remote guard
here); the feature-branch loop; final checkout of dev. -/
def setup_branches (main_branch dev_branch staging_branch : String)
    (feature_branches : List String) (s : RepoState) : ExecResult :=
  andThen (run_command (.checkout main_branch) s) fun s1 =>
  andThen (run_command (.checkoutNew dev_branch) s1) fun s2 =>
  andThen (run_command (.checkout main_branch) s2) fun s3 =>
  andThen (run_command (.checkoutNew staging_branch) s3) fun s4 =>
  andThen (commit_changes ("Initial empty commit on staging") true s4) fun s5 =>
  andThen (push_branch staging_branch false s5) fun s6 =>
  andThen (setup_branches_loop dev_branch feature_branches s6) fun s7 =>
  run_command (.checkout dev_branch) s7

/-- The `if repo_url:` block of `GitManager.setup_project`
(lines 93-102): bind the remote, force-push main, fetch; skipped entirely
when no URL is supplied. -/
def remote_seed (repo_url : Option String) (main_branch : String)
    (s : RepoState) : ExecResult :=
  match repo_url with
  | none => ⟨true, s, []⟩
  | some url =>
    andThen (set_remote url s) fun s1 =>
    andThen (push_branch main_branch true s1) fun s2 =>
    fetch_remote s2

/-- `GitManager.setup_project` (lines 81-106): init; create main; empty
commit on main; optional remote bind-and-seed; branch topology. -/
def setup_project (repo_url : Option String)
    (main_branch dev_branch staging_branch : String)
    (feature_branches : List String) (s : RepoState) : ExecResult :=
  andThen (initialize_repo s) fun s1 =>
  andThen (run_command (.checkoutNew main_branch) s1) fun s2 =>
  andThen (commit_changes ("Initial empty commit") true s2) fun s3 =>
  andThen (remote_seed repo_url main_branch s3) fun s4 =>
  setup_branches main_branch dev_branch staging_branch feature_branches s4

/-- The `if repo_url and not push_branch(dev_branch)` step of
`GitManager.finalize_project` (line 118): push dev only when a remote URL
was supplied. -/
def push_dev_if (repo_url : Option String) (dev_branch : String)
    (s : RepoState) : ExecResult :=
  match repo_url with
  | none => ⟨true, s, []⟩
  | some _ => push_branch dev_branch false s

/-- The feature-branch propagation loop of `GitManager.finalize_project`
(lines 123-132): checkout each feature branch, merge dev into it, push it. -/
def finalize_loop (dev_branch : String) :
    List String → RepoState → ExecResult
  | [], s => ⟨true, s, []⟩
  | f :: rest, s =>
    andThen (run_command (.checkout f) s) fun s1 =>
    andThen (run_command (.merge dev_branch) s1) fun s2 =>
    andThen (push_branch f false s2) fun s3 =>
    finalize_loop dev_branch rest s3

/-- The `if repo_url:` propagation block of `GitManager.finalize_project`
(lines 121-136): the merge loop followed by the final checkout of dev;
skipped entirely when no URL is supplied. -/
def propagate_if (repo_url : Option String) (dev_branch : String)
    (feature_branches : List String) (s : RepoState) : ExecResult :=
  match repo_url with
  | none => ⟨true, s, []⟩
  | some _ =>
    andThen (finalize_loop dev_branch feature_branches s) fun s1 =>
    run_command (.checkout dev_branch) s1

/-- `GitManager.finalize_project` (lines 108-137): stage all files, commit
on the active branch, then the optional remote propagation. -/
def finalize_project (repo_url : Option String) (dev_branch : String)
    (feature_branches : List String) (s : RepoState) : ExecResult :=
  andThen (add_files s) fun s1 =>
  andThen (commit_changes ("Initial project setup on dev") false s1) fun s2 =>
  andThen (push_dev_if repo_url dev_branch s2) fun s3 =>
  propagate_if repo_url dev_branch feature_branches s3

/-- A freshly created, empty project directory: not yet a git repository,
no branches, no files. -/
def freshState : RepoState :=
  { initialized := false, branches := [], current := none, tracked := [],
    untracked := [], staged := [], remote := none }

/-! ## The GUI workflow (src/gui.py, `ProjectCreatorApp.create_project`) -/

/-- Files of the working directory as seen by `os.path.exists`: untracked
files plus the files committed on the checked-out branch. -/
def workdir (s : RepoState) : List String :=
  s.untracked ++ trackedOfCur s

/-- Name-level view of the `FileCreator.create_*` writers as invoked
between setup and finalize: write the file into the working directory only
when no file of that name exists (each writer always produces a file in
the absent case — `create_license` falls back to a built-in MIT text when
the template fetch fails).  Returns the state and whether a write
happened.  (The content-level embedding of `file_creator.py` is
`FileCreator` below.) -/
def writeIfAbsent (name : String) (s : RepoState) : RepoState × Bool :=
  if name ∈ workdir s then (s, false)
  else ({ s with untracked := s.untracked ++ [name] }, true)

/-- The three boilerplate files, in the order `create_project` writes
them (src/gui.py lines 121-124). -/
def boilerplateFiles : List String := [".gitignore", "LICENSE", "README.md"]

/-- The boilerplate-writing phase of `create_project`: `.gitignore`,
`LICENSE`, `README.md`, each written only if absent.  Returns the state
and the list of files actually written. -/
def writeBoilerplate (s : RepoState) : RepoState × List String :=
  let p1 := writeIfAbsent (".gitignore") s
  let p2 := writeIfAbsent ("LICENSE") p1.1
  let p3 := writeIfAbsent ("README.md") p2.1
  (p3.1,
    (if p1.2 then [".gitignore"] else []) ++
    (if p2.2 then ["LICENSE"] else []) ++
    (if p3.2 then ["README.md"] else []))

/-- Result of the git-and-files portion of
`ProjectCreatorApp.create_project`: overall success, final repository
state, full git-command trace, the boilerplate files written, and whether
`finalize_project` was ever invoked. -/
structure ProjectResult where
  ok : Bool
  state : RepoState
  trace : List GitCmd
  filesWritten : List String
  finalizeInvoked : Bool
deriving DecidableEq

/-- The git-and-files portion of `ProjectCreatorApp.create_project`
(src/gui.py lines 116-129): run `setup_project`; on failure report the
error and return — no file is written and `finalize_project` is never
invoked; on success write the boilerplate files, then run
`finalize_project`. -/
def create_project (repo_url : Option String) (feature_branches : List String)
    (s : RepoState) : ProjectResult :=
  let r1 := setup_project repo_url ("main") ("dev") ("staging") feature_branches s
  if r1.ok then
    let p := writeBoilerplate r1.state
    let r2 := finalize_project repo_url ("dev") feature_branches p.1
    ⟨r2.ok, r2.state, r1.trace ++ r2.trace, p.2, true⟩
  else
    ⟨false, r1.state, r1.trace, [], false⟩

/-! ## Command scripts: the fixed command sequences of the two phases -/

/-- The commands issued per feature branch by the `setup_branches` loop. -/
def feature_pairs_script (dev_branch : String) : List String → List GitCmd
  | [] => []
  | f :: rest =>
    GitCmd.checkout dev_branch :: GitCmd.checkoutNew f ::
      feature_pairs_script dev_branch rest

/-- The full command sequence of `setup_branches`, in source order. -/
def setup_branches_script (main_branch dev_branch staging_branch : String)
    (feature_branches : List String) : List GitCmd :=
  [.checkout main_branch, .checkoutNew dev_branch, .checkout main_branch,
   .checkoutNew staging_branch,
   .commit ("Initial empty commit on staging") true,
   .push staging_branch false]
  ++ feature_pairs_script dev_branch feature_branches
  ++ [.checkout dev_branch]

/-- The commands of the `if repo_url:` block of `setup_project`. -/
def remote_seed_script : Option String → String → List GitCmd
  | none, _ => []
  | some url, main_branch =>
    [.remoteAdd url, .push main_branch true, .fetchOrigin]

/-- The full command sequence of `setup_project`, in source order. -/
def setup_project_script (repo_url : Option String)
    (main_branch dev_branch staging_branch : String)
    (feature_branches : List String) : List GitCmd :=
  [.init, .checkoutNew main_branch, .commit ("Initial empty commit") true]
  ++ remote_seed_script repo_url main_branch
  ++ setup_branches_script main_branch dev_branch staging_branch feature_branches

/-- Network-targeting git commands: `remote add`, `push`, `fetch`. -/
def isNetworkCmd : GitCmd → Bool
  | .remoteAdd _ => true
  | .fetchOrigin => true
  | .push _ _ => true
  | _ => false

/-- Force-mode pushes. -/
def isForcePush : GitCmd → Bool
  | .push _ true => true
  | _ => false

/-- The three bind-and-seed commands of the remote block of
`setup_project`: `git remote add origin`, the force-mode push, and
`git fetch origin`. -/
def isBindSeedCmd : GitCmd → Bool
  | .remoteAdd _ => true
  | .fetchOrigin => true
  | .push _ true => true
  | _ => false

/-- The commands issued per feature branch by the propagation loop of
`finalize_project`: checkout, merge dev, push. -/
def finalize_loop_script (dev_branch : String) : List String → List GitCmd
  | [] => []
  | f :: rest =>
    GitCmd.checkout f :: GitCmd.merge dev_branch :: GitCmd.push f false ::
      finalize_loop_script dev_branch rest

/-! ## Content-level model of `FileCreator` (src/file_creator.py) -/

namespace FileCreator

/-- A filesystem fragment: association of paths to file contents. -/
abbrev FS := List (String × String)

/-- `os.path.exists` on this fragment. -/
def pathExists (p : String) (fs : FS) : Bool := (fs.lookup p).isSome

/-- Create a file (only ever called for a path that does not exist). -/
def writeFile (p c : String) (fs : FS) : FS := (p, c) :: fs

/-- The `.gitignore` text built by `FileCreator.create_gitignore`
(lines 24-35): fixed header blocks, then one block per language, using
the GitHub template when available. -/
def gitignoreText (languages : List String)
    (template_of : String → Option String) : String :=
  ("# Auto-generated .gitignore\n" ++ "# .NET Debug and Build Outputs\n" ++
   "bin/\nobj/\n*.dll\n*.exe\n*.pdb\n*.deps.json\n*.runtimeconfig.json\n" ++
   "\n# IDE Files\n.idea/\n*.sln.iml\n" ++ "\n# Language-specific ignore\n") ++
  String.join (languages.map fun lang =>
    match template_of lang with
    | some content => "\n# " ++ lang ++ " specific ignore\n" ++ content
    | none => "# " ++ lang ++ " (template not found)\n")

/-- `FileCreator.create_gitignore` (lines 21-38): write
`<project_path>/.gitignore` only when no such file exists. -/
def create_gitignore (project_path : String) (languages : List String)
    (template_of : String → Option String) (fs : FS) : FS :=
  let path := project_path ++ "/.gitignore"
  if pathExists path fs then fs
  else writeFile path (gitignoreText languages template_of) fs

/-- `FileCreator.create_license` (lines 40-54): write
`<project_path>/LICENSE` only when no such file exists; use the fetched
license body (with `[year]`/`[fullname]` substituted) when available,
otherwise a hardcoded MIT fallback. -/
def create_license (project_path author license_key : String)
    (license_body : String → Option String) (fs : FS) : FS :=
  let path := project_path ++ "/LICENSE"
  if pathExists path fs then fs
  else
    match license_body license_key with
    | some content =>
      writeFile path ((content.replace ("[year]") ("2025")).replace
        ("[fullname]") author) fs
    | none =>
      writeFile path ("MIT License\n\nCopyright (c) 2025 " ++ author ++ "\n") fs

/-- `FileCreator.create_readme` (lines 56-63): write
`<project_path>/README.md` only when no such file exists. -/
def create_readme (project_path project_name author : String) (fs : FS) : FS :=
  let path := project_path ++ "/README.md"
  if pathExists path fs then fs
  else writeFile path ("# " ++ project_name ++ "\n\nCreated by " ++ author ++ "\n") fs

end FileCreator

/-! ## Model of `GitHubManager` (src/github_manager.py) -/

namespace GitHub

/-- Credential state of a `GitHubManager`: the `GITHUB_PAT` and
`GITHUB_USERNAME` environment values, each possibly unset. -/
structure Manager where
  token : Option String
  username : Option String
deriving DecidableEq

/-- Python truthiness of an optional string (`bool(x)`): unset and empty
are falsy. -/
def truthy : Option String → Bool
  | none => false
  | some s => !(s == "")

/-- `GitHubManager.is_available` (line 77):
`bool(self.token) and bool(self.username)`. -/
def is_available (g : Manager) : Bool := truthy g.token && truthy g.username

/-- The username string used to build URLs (always present on the paths
that use it, since they are guarded by `is_available`). -/
def usernameStr (g : Manager) : String := g.username.getD ""

/-- `GitHubManager.get_language_templates` (lines 89-126): unavailable
credentials yield `([], no request)`; otherwise one GET whose failure
falls back to `[]`.  The second component is the list of URLs requested. -/
def get_language_templates (g : Manager)
    (http : String → Except Unit (List String)) :
    List String × List String :=
  if !(is_available g) then ([], [])
  else
    let url := "https://api.github.com/gitignore/templates"
    match http url with
    | .ok templates => (templates, [url])
    | .error _ => ([], [url])

/-- `GitHubManager.get_license_templates` (lines 128-166): unavailable
credentials yield `([], no request)`; otherwise one GET returning
`(key, name)` pairs, whose failure falls back to `[]`. -/
def get_license_templates (g : Manager)
    (http : String → Except Unit (List (String × String))) :
    List (String × String) × List String :=
  if !(is_available g) then ([], [])
  else
    let url := "https://api.github.com/licenses"
    match http url with
    | .ok licenses => (licenses, [url])
    | .error _ => ([], [url])

/-- `GitHubManager.get_license_content` (lines 168-201): unavailable
credentials yield `(none, no request)`; otherwise one GET for the license
body, whose failure yields `none`. -/
def get_license_content (g : Manager) (license_key : String)
    (http : String → Except Unit String) : Option String × List String :=
  if !(is_available g) then (none, [])
  else
    let url := "https://api.github.com/licenses/" ++ license_key
    match http url with
    | .ok body => (some body, [url])
    | .error _ => (none, [url])

/-- `GitHubManager.get_gitignore_template` (lines 203-236): unavailable
credentials yield `(none, no request)`; otherwise one GET for the
template source, whose failure yields `none`. -/
def get_gitignore_template (g : Manager) (language : String)
    (http : String → Except Unit String) : Option String × List String :=
  if !(is_available g) then (none, [])
  else
    let url := "https://api.github.com/gitignore/templates/" ++ language
    match http url with
    | .ok source => (some source, [url])
    | .error _ => (none, [url])

/-- `GitHubManager.check_repository_exists` (lines 238-265): unavailable
credentials yield `(false, no request)`; otherwise one GET, existing
exactly when the status is 200, any exception yielding `false`. -/
def check_repository_exists (g : Manager) (repo_name : String)
    (http : String → Except Unit Nat) : Bool × List String :=
  if !(is_available g) then (false, [])
  else
    let url := "https://api.github.com/repos/" ++ usernameStr g ++ "/" ++ repo_name
    match http url with
    | .ok status => (status == 200, [url])
    | .error _ => (false, [url])

/-- `GitHubManager.delete_repository` (lines 267-298): unavailable
credentials yield `(false, no request)`; otherwise one DELETE, `true` on
success, any exception yielding `false`. -/
def delete_repository (g : Manager) (repo_name : String)
    (http : String → Except Unit Unit) : Bool × List String :=
  if !(is_available g) then (false, [])
  else
    let url := "https://api.github.com/repos/" ++ usernameStr g ++ "/" ++ repo_name
    match http url with
    | .ok _ => (true, [url])
    | .error _ => (false, [url])

/-- `GitHubManager.create_repository` (lines 300-343): unavailable
credentials yield `(none, no request)`; otherwise one POST, returning the
clone URL on success and `none` on any exception. -/
def create_repository (g : Manager) (repo_name : String)
    (_default_branch : String) (_priv : Bool) (_license_key : String)
    (http : String → Except Unit Unit) : Option String × List String :=
  if !(is_available g) then (none, [])
  else
    let url := "https://api.github.com/user/repos"
    match http url with
    | .ok _ =>
      (some ("https://github.com/" ++ usernameStr g ++ "/" ++ repo_name ++ ".git"),
       [url])
    | .error _ => (none, [url])

end GitHub

/-- States whose git history carries no project file anywhere: every
branch's tracked list, the index and the untracked set are all empty.
This is the shape of the repository throughout the whole setup phase. -/
def allClean (s : RepoState) : Prop :=
  (∀ b, trackedOf s b = []) ∧ s.staged = [] ∧ s.untracked = []

/-- The repository state reached from a fresh directory by the first
twelve commands of a remote-seeded setup (everything before the
feature-branch loop): the three fixed branches exist, all empty, with
`staging` checked out and the remote bound. -/
def seededState (u : String) : RepoState :=
  { initialized := true, branches := [("main"), ("dev"), ("staging")],
    current := some ("staging"),
    tracked := [(("main"), []), (("dev"), []), (("staging"), [])],
    untracked := [], staged := [], remote := some u }

/-! ## Execution-machinery lemmas -/

theorem andThen_of_ok {r : ExecResult} (k : RepoState → ExecResult)
    (h : r.ok = true) :
    andThen r k = ⟨(k r.state).ok, (k r.state).state, r.trace ++ (k r.state).trace⟩ := by
  simp [andThen, h]

theorem andThen_of_fail {r : ExecResult} (k : RepoState → ExecResult)
    (h : r.ok = false) : andThen r k = r := by
  simp [andThen, h]

theorem andThen_ok_iff (r : ExecResult) (k : RepoState → ExecResult) :
    (andThen r k).ok = true ↔ r.ok = true ∧ (k r.state).ok = true := by
  by_cases h : r.ok = true
  · simp [andThen_of_ok k h, h]
  · simp [andThen_of_fail k (Bool.not_eq_true _ ▸ h), h]

theorem andThen_state_of_ok {r : ExecResult} {k : RepoState → ExecResult}
    (h : (andThen r k).ok = true) :
    (andThen r k).state = (k r.state).state := by
  have hr : r.ok = true := ((andThen_ok_iff r k).mp h).1
  simp [andThen_of_ok k hr]

theorem run_command_eq_execSeq (c : GitCmd) (s : RepoState) :
    run_command c s = execSeq [c] s := by
  by_cases h : (runCmd c s).1 = true <;>
    simp [run_command, execSeq, h]

theorem execSeq_cons (c : GitCmd) (cs : List GitCmd) (s : RepoState) :
    execSeq (c :: cs) s = andThen (run_command c s) fun t => execSeq cs t := by
  by_cases h : (runCmd c s).1 = true <;>
    simp [execSeq, run_command, andThen, h]

theorem execSeq_append (xs : List GitCmd) :
    ∀ (ys : List GitCmd) (s : RepoState),
      execSeq (xs ++ ys) s = andThen (execSeq xs s) fun t => execSeq ys t := by
  induction xs with
  | nil => intro ys s; simp [execSeq, andThen]
  | cons c cs ih =>
    intro ys s
    by_cases h : (runCmd c s).1 = true <;>
      simp [execSeq, andThen, h, ih]
    by_cases h2 : (execSeq cs (runCmd c s).2).ok = true <;> simp [h2]

/-- The trace of a command sequence is an initial segment of it: commands
after the first failure are never issued. -/
theorem execSeq_trace_tail (cs : List GitCmd) :
    ∀ s : RepoState, ∃ tl, cs = (execSeq cs s).trace ++ tl := by
  induction cs with
  | nil => intro s; exact ⟨[], rfl⟩
  | cons c cs ih =>
    intro s
    by_cases h : (runCmd c s).1 = true
    · obtain ⟨tl, htl⟩ := ih (runCmd c s).2
      exact ⟨tl, by simp [execSeq, h]; exact htl⟩
    · exact ⟨cs, by simp [execSeq, h]⟩

theorem execSeq_trace_mem {c : GitCmd} {cs : List GitCmd} {s : RepoState}
    (h : c ∈ (execSeq cs s).trace) : c ∈ cs := by
  obtain ⟨tl, htl⟩ := execSeq_trace_tail cs s
  rw [htl]
  exact List.mem_append_left _ h

/-- A state predicate preserved by every single command step is preserved
by any command sequence, whether or not the run succeeds. -/
theorem execSeq_inv (P : RepoState → Prop)
    (step : ∀ c s, P s → P (runCmd c s).2) :
    ∀ (cs : List GitCmd) (s : RepoState), P s → P (execSeq cs s).state := by
  intro cs
  induction cs with
  | nil => intro s h; exact h
  | cons c cs ih =>
    intro s h
    by_cases hc : (runCmd c s).1 = true <;>
      simp [execSeq, hc]
    · exact ih _ (step c s h)
    · exact step c s h

/-! ## Tracked-files bookkeeping lemmas -/

theorem lookup_setTracked_self (b : String) (v : List String) :
    ∀ t : List (String × List String), (setTracked b v t).lookup b = some v := by
  intro t
  induction t with
  | nil => simp [setTracked]
  | cons p rest ih =>
    obtain ⟨k, w⟩ := p
    by_cases h : k = b
    · simp [setTracked, h, List.lookup]
    · simp only [setTracked, if_neg h, List.lookup]
      have : (b == k) = false := by
        simp [beq_eq_false_iff_ne]
        exact fun hk => h hk.symm
      simp [this, ih]

theorem lookup_setTracked_ne (b c : String) (v : List String) (h : c ≠ b) :
    ∀ t : List (String × List String),
      (setTracked b v t).lookup c = t.lookup c := by
  intro t
  induction t with
  | nil => simp [setTracked, List.lookup, beq_eq_false_iff_ne.mpr h]
  | cons p rest ih =>
    obtain ⟨k, w⟩ := p
    by_cases hk : k = b
    · subst hk
      simp [setTracked, List.lookup, beq_eq_false_iff_ne.mpr h]
    · simp [setTracked, if_neg hk, List.lookup, ih]

/-! ## Per-command case analyses -/

theorem runCmd_push_snd (b : String) (f : Bool) (s : RepoState) :
    (runCmd (GitCmd.push b f) s).2 = s := by
  simp only [runCmd]
  split <;> rfl

theorem runCmd_checkout_cases (b : String) (s : RepoState) :
    runCmd (GitCmd.checkout b) s = (true, { s with current := some b }) ∨
    runCmd (GitCmd.checkout b) s = (false, s) := by
  by_cases h : s.initialized = true ∧ b ∈ s.branches
  · left; simp [runCmd, h]
  · right; simp [runCmd, h]

theorem runCmd_checkoutNew_cases (b : String) (s : RepoState) :
    runCmd (GitCmd.checkoutNew b) s =
      (true, { s with branches := s.branches ++ [b],
                      tracked := setTracked b (trackedOfCur s) s.tracked,
                      current := some b }) ∧ b ∉ s.branches ∨
    runCmd (GitCmd.checkoutNew b) s = (false, s) := by
  by_cases h : s.initialized = true ∧ b ∉ s.branches
  · left; exact ⟨by simp [runCmd, h], h.2⟩
  · right; simp [runCmd, h]

theorem runCmd_addAll_cases (s : RepoState) :
    runCmd GitCmd.addAll s =
      (true, { s with staged := s.staged ++ s.untracked, untracked := [] }) ∨
    runCmd GitCmd.addAll s = (false, s) := by
  by_cases h : s.initialized = true
  · left; simp [runCmd, h]
  · right; simp [runCmd, h]

theorem runCmd_commit_cases (m : String) (ae : Bool) (s : RepoState) :
    (∃ b, s.current = some b ∧
      runCmd (GitCmd.commit m ae) s =
        (true, { s with tracked := setTracked b (trackedOf s b ++ s.staged) s.tracked,
                        staged := [] })) ∨
    runCmd (GitCmd.commit m ae) s = (false, s) := by
  match hc : s.current with
  | none => right; simp [runCmd, hc]
  | some b =>
    by_cases h : s.initialized = true ∧ (ae = true ∨ s.staged ≠ [])
    · left; exact ⟨b, rfl, by simp [runCmd, hc, h]⟩
    · right; simp [runCmd, hc, h]

theorem runCmd_merge_cases (b : String) (s : RepoState) :
    (∃ c, s.current = some c ∧
      runCmd (GitCmd.merge b) s =
        (true, { s with tracked := setTracked c (trackedOf s c ++ trackedOf s b) s.tracked })) ∨
    runCmd (GitCmd.merge b) s = (false, s) := by
  match hc : s.current with
  | none => right; simp [runCmd, hc]
  | some c =>
    by_cases h : s.initialized = true ∧ b ∈ s.branches
    · left; exact ⟨c, rfl, by simp [runCmd, hc, h]⟩
    · right; simp [runCmd, hc, h]

/-- `git commit` with the active branch known. -/
theorem runCmd_commit_cases2 (m : String) (ae : Bool) (s : RepoState)
    (b : String) (hcur : s.current = some b) :
    runCmd (GitCmd.commit m ae) s =
      (true, { s with tracked := setTracked b (trackedOf s b ++ s.staged) s.tracked,
                      staged := [] }) ∨
    runCmd (GitCmd.commit m ae) s = (false, s) := by
  by_cases h : s.initialized = true ∧ (ae = true ∨ s.staged ≠ [])
  · left; simp [runCmd, hcur, h]
  · right; simp [runCmd, hcur, h]

/-- `git merge` with the active branch known. -/
theorem runCmd_merge_cases2 (b f2 : String) (s : RepoState)
    (hcur : s.current = some f2) :
    runCmd (GitCmd.merge b) s =
      (true, { s with tracked := setTracked f2 (trackedOf s f2 ++ trackedOf s b) s.tracked }) ∨
    runCmd (GitCmd.merge b) s = (false, s) := by
  by_cases h : s.initialized = true ∧ b ∈ s.branches
  · left; simp [runCmd, hcur, h]
  · right; simp [runCmd, hcur, h]

/-- Every single git command preserves `allClean`: as long as nothing is
ever staged from a nonempty working set, no branch can acquire a tracked
file.  (This holds for arbitrary commands because `allClean` also pins
the index and working set to be empty.) -/
theorem allClean_step : ∀ (c : GitCmd) (s : RepoState),
    allClean s → allClean (runCmd c s).2 := by
  intro c s h
  obtain ⟨ht, hst, hun⟩ := h
  have hcur : trackedOfCur s = [] := by
    unfold trackedOfCur
    split
    · exact ht _
    · rfl
  cases c with
  | init => exact ⟨ht, hst, hun⟩
  | checkout b =>
    rcases runCmd_checkout_cases b s with h2 | h2 <;> rw [h2] <;>
      exact ⟨ht, hst, hun⟩
  | checkoutNew b =>
    rcases runCmd_checkoutNew_cases b s with ⟨h2, _⟩ | h2 <;> rw [h2]
    · refine ⟨fun b2 => ?_, hst, hun⟩
      by_cases hb : b2 = b
      · subst hb
        simp only [trackedOf]
        simp [lookup_setTracked_self, hcur]
      · have h1 := ht b2
        simp only [trackedOf] at h1 ⊢
        simp [lookup_setTracked_ne b b2 _ hb, h1]
    · exact ⟨ht, hst, hun⟩
  | addAll =>
    rcases runCmd_addAll_cases s with h2 | h2 <;> rw [h2]
    · exact ⟨ht, by simp [hst, hun], rfl⟩
    · exact ⟨ht, hst, hun⟩
  | commit m ae =>
    rcases runCmd_commit_cases m ae s with ⟨b, _, h2⟩ | h2 <;> rw [h2]
    · refine ⟨fun b2 => ?_, rfl, hun⟩
      by_cases hb : b2 = b
      · subst hb
        have h1 := ht b2
        simp only [trackedOf] at h1 ⊢
        simp [lookup_setTracked_self, h1, hst]
      · have h1 := ht b2
        simp only [trackedOf] at h1 ⊢
        simp [lookup_setTracked_ne b b2 _ hb, h1]
    · exact ⟨ht, hst, hun⟩
  | remoteAdd u =>
    simp only [runCmd]
    split <;> exact ⟨ht, hst, hun⟩
  | fetchOrigin =>
    simp only [runCmd]
    split <;> exact ⟨ht, hst, hun⟩
  | push b f =>
    rw [runCmd_push_snd]
    exact ⟨ht, hst, hun⟩
  | merge b =>
    rcases runCmd_merge_cases b s with ⟨c2, _, h2⟩ | h2 <;> rw [h2]
    · refine ⟨fun b2 => ?_, hst, hun⟩
      by_cases hb : b2 = c2
      · subst hb
        have h1 := ht b2
        have h3 := ht b
        simp only [trackedOf] at h1 h3 ⊢
        simp [lookup_setTracked_self, h1, h3]
      · have h1 := ht b2
        simp only [trackedOf] at h1 ⊢
        simp [lookup_setTracked_ne c2 b2 _ hb, h1]
    · exact ⟨ht, hst, hun⟩

/-! ## The managers run their scripts -/

theorem andThen_execSeq_nil (r : ExecResult) :
    (andThen r fun t => execSeq [] t) = r := by
  obtain ⟨ok, st, tr⟩ := r
  by_cases h : ok = true <;> simp [andThen, execSeq, h]

theorem andThen_assoc (r : ExecResult) (k1 k2 : RepoState → ExecResult) :
    andThen (andThen r k1) k2 = andThen r fun t => andThen (k1 t) k2 := by
  by_cases h : r.ok = true
  · by_cases h2 : (k1 r.state).ok = true <;>
      simp [andThen, h, h2, List.append_assoc]
  · simp [andThen, h]

theorem setup_branches_loop_eq (dev_branch : String) :
    ∀ (fs : List String) (s : RepoState),
      setup_branches_loop dev_branch fs s =
        execSeq (feature_pairs_script dev_branch fs) s := by
  intro fs
  induction fs with
  | nil => intro s; rfl
  | cons f rest ih =>
    intro s
    simp only [setup_branches_loop, feature_pairs_script, execSeq_cons, ih]

theorem setup_branches_eq (main_branch dev_branch staging_branch : String)
    (fs : List String) (s : RepoState) :
    setup_branches main_branch dev_branch staging_branch fs s =
      execSeq (setup_branches_script main_branch dev_branch staging_branch fs) s := by
  simp only [setup_branches_script, List.cons_append, List.nil_append,
    List.append_assoc]
  simp only [execSeq_cons, execSeq_append, ← setup_branches_loop_eq,
    andThen_execSeq_nil]
  rfl

theorem setup_project_eq (repo_url : Option String)
    (main_branch dev_branch staging_branch : String)
    (fs : List String) (s : RepoState) :
    setup_project repo_url main_branch dev_branch staging_branch fs s =
      execSeq (setup_project_script repo_url main_branch dev_branch
        staging_branch fs) s := by
  cases repo_url with
  | none =>
    simp only [setup_project_script, remote_seed_script, List.cons_append,
      List.nil_append]
    simp only [execSeq_cons, execSeq_append, ← setup_branches_eq,
      ← run_command_eq_execSeq]
    rfl
  | some u =>
    simp only [setup_project_script, remote_seed_script, List.cons_append,
      List.nil_append, List.append_assoc]
    simp only [execSeq_cons, execSeq_append, ← setup_branches_eq,
      andThen_execSeq_nil]
    simp only [setup_project, remote_seed, initialize_repo, set_remote,
      fetch_remote, commit_changes, push_branch, andThen_assoc]

/-! ## Claim C1 -/

/-- C1: the claim says the staging push is issued if and only if a remote
binding exists, and that without a remote URL no network-targeting git
command is issued and setup does not fail at that step.  The code violates
this: `GitManager.setup_branches` issues `git push origin staging`
unconditionally (src/git_manager.py line 54), so on a fresh directory with
no remote URL the push is issued, is the last (failing) command of the
run, and `setup_project` as a whole returns failure. -/
theorem C1_staging_push_issued_without_remote :
    (setup_project none ("main") ("dev") ("staging") [] freshState).ok = false
    ∧ GitCmd.push ("staging") false ∈
        (setup_project none ("main") ("dev") ("staging") [] freshState).trace
    ∧ (setup_project none ("main") ("dev") ("staging") [] freshState).trace.getLast?
        = some (GitCmd.push ("staging") false) := by
  decide

/-! ## Claim C2 -/

/-- C2: the claim says that with no remote URL, `setup_project` then
`finalize_project` both succeed leaving exactly {main, dev, staging} plus
the feature branches, with dev active.  The code violates this:
`setup_project` with no remote URL always fails (at the unconditional
staging push), the feature branches are never created, and the run ends
on `staging`, not `dev`. -/
theorem C2_setup_fails_without_remote :
    (setup_project none ("main") ("dev") ("staging") ["feature-x"] freshState).ok = false
    ∧ (setup_project none ("main") ("dev") ("staging") ["feature-x"] freshState).state.branches
        = ["main", "dev", "staging"]
    ∧ (setup_project none ("main") ("dev") ("staging") ["feature-x"] freshState).state.current
        = some ("staging")
    ∧ GitCmd.checkoutNew ("feature-x") ∉
        (setup_project none ("main") ("dev") ("staging") ["feature-x"] freshState).trace := by
  decide

/-! ## Script membership lemmas -/

theorem feature_pairs_mem (dev_branch : String) (c : GitCmd) :
    ∀ fs : List String, c ∈ feature_pairs_script dev_branch fs →
      c = GitCmd.checkout dev_branch ∨ ∃ f, c = GitCmd.checkoutNew f := by
  intro fs
  induction fs with
  | nil => intro h; simp [feature_pairs_script] at h
  | cons f rest ih =>
    intro h
    simp only [feature_pairs_script, List.mem_cons] at h
    rcases h with h | h | h
    · left; exact h
    · right; exact ⟨f, h⟩
    · exact ih h

theorem setup_script_no_addAll (repo_url : Option String)
    (m d st : String) (fs : List String) :
    GitCmd.addAll ∉ setup_project_script repo_url m d st fs := by
  intro hmem
  simp only [setup_project_script, setup_branches_script, List.append_assoc,
    List.mem_append, List.mem_cons, List.not_mem_nil, or_false,
    List.mem_singleton] at hmem
  rcases hmem with h | h | h
  · simp at h
  · cases repo_url <;> simp [remote_seed_script] at h
  · rcases h with h | h
    · simp at h
    · rcases h with h | h
      · rcases feature_pairs_mem d _ fs h with h2 | ⟨f, h2⟩ <;> simp at h2
      · simp at h

/-! ## Claim C4 -/

/-- C4 counterexample: re-running `setup_project` against a directory in
which `main` already exists (here: the state left by a completed prior
workflow) does fail, but NOT at the "create dev from main" step as the
claim states: the failing command — the last one issued — is the creation
of `main` itself (`git checkout -b main`, src/git_manager.py line 87), and
no dev-creation command is ever issued. -/
theorem C4_counterexample_rerun_fails_at_main :
    (setup_project (some ("u")) ("main") ("dev") ("staging") []
        ((create_project (some ("u")) [] freshState).state)).ok = false
    ∧ (setup_project (some ("u")) ("main") ("dev") ("staging") []
        ((create_project (some ("u")) [] freshState).state)).trace
        = [GitCmd.init, GitCmd.checkoutNew ("main")]
    ∧ GitCmd.checkoutNew ("dev") ∉
        (setup_project (some ("u")) ("main") ("dev") ("staging") []
          ((create_project (some ("u")) [] freshState).state)).trace := by
  decide

/-- C4 amended: re-running `setup_project` against any state in which the
branch `main` already exists fails deterministically at the "create main"
step — `git init` succeeds, `git checkout -b main` is the first and only
failing command, and nothing after it (in particular no dev creation) is
issued. -/
theorem C4_amended_rerun_fails_at_create_main (repo_url : Option String)
    (feature_branches : List String) (s : RepoState)
    (h : ("main") ∈ s.branches) :
    (setup_project repo_url ("main") ("dev") ("staging") feature_branches s).ok = false
    ∧ (setup_project repo_url ("main") ("dev") ("staging") feature_branches s).trace
        = [GitCmd.init, GitCmd.checkoutNew ("main")] := by
  have h2 : run_command (GitCmd.checkoutNew ("main")) { s with initialized := true } =
      ⟨false, { s with initialized := true }, [GitCmd.checkoutNew ("main")]⟩ := by
    simp [run_command, runCmd, h]
  have h1 : initialize_repo s = ⟨true, { s with initialized := true }, [GitCmd.init]⟩ := rfl
  rw [setup_project, h1, andThen_of_ok _ rfl, h2, andThen_of_fail _ rfl]
  exact ⟨rfl, rfl⟩

/-- C4 amended, witness: the state left by one completed workflow has
`main` as an existing branch, and a re-run of setup against it fails with
exactly the trace `[git init, git checkout -b main]`. -/
theorem C4_amended_witness :
    ("main") ∈ ((create_project (some ("u")) [] freshState).state).branches
    ∧ ((setup_project (some ("u2")) ("main") ("dev") ("staging") ["feature-x"]
          ((create_project (some ("u")) [] freshState).state)).ok = false
        ∧ (setup_project (some ("u2")) ("main") ("dev") ("staging") ["feature-x"]
            ((create_project (some ("u")) [] freshState).state)).trace
            = [GitCmd.init, GitCmd.checkoutNew ("main")]) :=
  ⟨by decide,
   C4_amended_rerun_fails_at_create_main (some ("u2")) ["feature-x"] _ (by decide)⟩

/-! ## Claim C5 -/

/-- C5: `setup_branches` issues its commands in exactly the order of
`setup_branches_script` — checkout main; create dev; checkout main;
create staging; explicitly-empty commit on staging; push staging; per
feature branch (in caller order) checkout dev then create the feature
branch; final checkout of dev — under the stop-at-first-failure runner
`execSeq`, which by construction issues no command after the first
failing one.  For the empty feature list the script is exactly the six
fixed steps plus the final checkout of dev. -/
theorem C5_setup_branches_command_order
    (main_branch dev_branch staging_branch : String)
    (feature_branches : List String) (s : RepoState) :
    setup_branches main_branch dev_branch staging_branch feature_branches s =
      execSeq (setup_branches_script main_branch dev_branch staging_branch
        feature_branches) s
    ∧ setup_branches_script main_branch dev_branch staging_branch [] =
        [GitCmd.checkout main_branch, GitCmd.checkoutNew dev_branch,
         GitCmd.checkout main_branch, GitCmd.checkoutNew staging_branch,
         GitCmd.commit ("Initial empty commit on staging") true,
         GitCmd.push staging_branch false, GitCmd.checkout dev_branch] :=
  ⟨setup_branches_eq main_branch dev_branch staging_branch feature_branches s, rfl⟩

/-! ## Claim C7 -/

/-- C7: whenever `setup_project` fails — in particular when any
topology-creation step fails — `create_project` (src/gui.py lines
116-129) reports the failure and returns: `finalize_project` is never
invoked, no boilerplate file is written, the overall trace is exactly the
setup trace, and no staging command (`git add .`) is ever issued. -/
theorem C7_setup_failure_stops_workflow (repo_url : Option String)
    (feature_branches : List String) (s : RepoState)
    (h : (setup_project repo_url ("main") ("dev") ("staging")
      feature_branches s).ok = false) :
    (create_project repo_url feature_branches s).finalizeInvoked = false
    ∧ (create_project repo_url feature_branches s).filesWritten = []
    ∧ (create_project repo_url feature_branches s).trace =
        (setup_project repo_url ("main") ("dev") ("staging") feature_branches s).trace
    ∧ GitCmd.addAll ∉ (create_project repo_url feature_branches s).trace
    ∧ (create_project repo_url feature_branches s).ok = false := by
  have hc : create_project repo_url feature_branches s =
      ⟨false, (setup_project repo_url ("main") ("dev") ("staging")
          feature_branches s).state,
        (setup_project repo_url ("main") ("dev") ("staging")
          feature_branches s).trace, [], false⟩ := by
    simp [create_project, h]
  refine ⟨by rw [hc], by rw [hc], by rw [hc], ?_, by rw [hc]⟩
  rw [hc]
  intro hmem
  rw [setup_project_eq] at hmem
  exact setup_script_no_addAll repo_url _ _ _ feature_branches
    (execSeq_trace_mem hmem)

/-- C7 witness: on a fresh directory with no remote URL, setup does fail
(at the unconditional staging push), and the workflow stops before any
file write, any staging, and before finalize. -/
theorem C7_witness :
    (setup_project none ("main") ("dev") ("staging") [] freshState).ok = false
    ∧ ((create_project none [] freshState).finalizeInvoked = false
      ∧ (create_project none [] freshState).filesWritten = []
      ∧ (create_project none [] freshState).trace =
          (setup_project none ("main") ("dev") ("staging") [] freshState).trace
      ∧ GitCmd.addAll ∉ (create_project none [] freshState).trace
      ∧ (create_project none [] freshState).ok = false) :=
  ⟨by decide, C7_setup_failure_stops_workflow none [] freshState (by decide)⟩

/-! ## Claim C8 -/

/-- C8: every `GitHubManager` operation checks `is_available` first; with
an incomplete credential pair each returns its fixed "unavailable" result
(empty list, `None`, or `False`) with no HTTP request issued (the second
component, the list of requested URLs, is empty) and without raising. -/
theorem C8_unavailable_credentials_degrade (g : GitHub.Manager)
    (http1 : String → Except Unit (List String))
    (http2 : String → Except Unit (List (String × String)))
    (http3 http4 : String → Except Unit String)
    (http5 : String → Except Unit Nat)
    (http6 http7 : String → Except Unit Unit)
    (license_key language repo_name default_branch : String) (priv : Bool)
    (h : GitHub.is_available g = false) :
    GitHub.get_language_templates g http1 = ([], [])
    ∧ GitHub.get_license_templates g http2 = ([], [])
    ∧ GitHub.get_license_content g license_key http3 = (none, [])
    ∧ GitHub.get_gitignore_template g language http4 = (none, [])
    ∧ GitHub.check_repository_exists g repo_name http5 = (false, [])
    ∧ GitHub.delete_repository g repo_name http6 = (false, [])
    ∧ GitHub.create_repository g repo_name default_branch priv license_key http7
        = (none, []) := by
  simp [GitHub.get_language_templates, GitHub.get_license_templates,
    GitHub.get_license_content, GitHub.get_gitignore_template,
    GitHub.check_repository_exists, GitHub.delete_repository,
    GitHub.create_repository, h]

/-- C8 witness: a manager with no token (username present) is unavailable,
and all seven operations degrade to their fixed results with no request. -/
theorem C8_witness :
    GitHub.is_available ⟨none, some ("user")⟩ = false
    ∧ (GitHub.get_language_templates ⟨none, some ("user")⟩
          (fun _ => Except.error ()) = ([], [])
      ∧ GitHub.get_license_templates ⟨none, some ("user")⟩
          (fun _ => Except.error ()) = ([], [])
      ∧ GitHub.get_license_content ⟨none, some ("user")⟩ ("mit")
          (fun _ => Except.error ()) = (none, [])
      ∧ GitHub.get_gitignore_template ⟨none, some ("user")⟩ ("Python")
          (fun _ => Except.error ()) = (none, [])
      ∧ GitHub.check_repository_exists ⟨none, some ("user")⟩ ("demo")
          (fun _ => Except.error ()) = (false, [])
      ∧ GitHub.delete_repository ⟨none, some ("user")⟩ ("demo")
          (fun _ => Except.error ()) = (false, [])
      ∧ GitHub.create_repository ⟨none, some ("user")⟩ ("demo") ("main") false
          ("mit") (fun _ => Except.error ()) = (none, [])) :=
  ⟨by decide,
   C8_unavailable_credentials_degrade ⟨none, some ("user")⟩
     (fun _ => Except.error ()) (fun _ => Except.error ())
     (fun _ => Except.error ()) (fun _ => Except.error ())
     (fun _ => Except.error ()) (fun _ => Except.error ())
     (fun _ => Except.error ()) ("mit") ("Python") ("demo") ("main") false
     (by decide)⟩

/-! ## Claim C9 -/

/-- C9: the boilerplate writers never overwrite, per target path: for
each of `create_gitignore`, `create_license` and `create_readme`
separately, whenever a file already exists at that writer's own target
path the call returns the filesystem unchanged (the existing content is
untouched and nothing is written), independently of whether the other
boilerplate files exist. -/
theorem C9_writers_never_overwrite (fs : FileCreator.FS)
    (project_path author license_key project_name : String)
    (languages : List String)
    (tmpl lic : String → Option String) :
    (FileCreator.pathExists (project_path ++ "/.gitignore") fs = true →
      FileCreator.create_gitignore project_path languages tmpl fs = fs)
    ∧ (FileCreator.pathExists (project_path ++ "/LICENSE") fs = true →
      FileCreator.create_license project_path author license_key lic fs = fs)
    ∧ (FileCreator.pathExists (project_path ++ "/README.md") fs = true →
      FileCreator.create_readme project_path project_name author fs = fs) := by
  refine ⟨fun hg => ?_, fun hl => ?_, fun hr => ?_⟩
  · simp [FileCreator.create_gitignore, hg]
  · simp [FileCreator.create_license, hl]
  · simp [FileCreator.create_readme, hr]

/-- C9 witness: each writer is a no-op on a filesystem already holding
its own target file, including with only some boilerplate files present:
a filesystem with just `.gitignore` for the gitignore writer, and one
with `LICENSE` and `README.md` but no `.gitignore` for the other two. -/
theorem C9_witness :
    (FileCreator.pathExists ("p/.gitignore") [(("p/.gitignore"), ("a"))] = true
      ∧ FileCreator.create_gitignore ("p") ["Python"] (fun _ => none)
          [(("p/.gitignore"), ("a"))] = [(("p/.gitignore"), ("a"))])
    ∧ (FileCreator.pathExists ("p/LICENSE")
        [(("p/LICENSE"), ("b")), (("p/README.md"), ("c"))] = true
      ∧ FileCreator.create_license ("p") ("Ann") ("mit") (fun _ => none)
          [(("p/LICENSE"), ("b")), (("p/README.md"), ("c"))]
          = [(("p/LICENSE"), ("b")), (("p/README.md"), ("c"))])
    ∧ (FileCreator.pathExists ("p/README.md")
        [(("p/LICENSE"), ("b")), (("p/README.md"), ("c"))] = true
      ∧ FileCreator.create_readme ("p") ("demo") ("Ann")
          [(("p/LICENSE"), ("b")), (("p/README.md"), ("c"))]
          = [(("p/LICENSE"), ("b")), (("p/README.md"), ("c"))]) :=
  ⟨⟨by decide,
    (C9_writers_never_overwrite [(("p/.gitignore"), ("a"))] ("p") ("Ann")
      ("mit") ("demo") ["Python"] (fun _ => none) (fun _ => none)).1
      (by decide)⟩,
   ⟨by decide,
    (C9_writers_never_overwrite [(("p/LICENSE"), ("b")), (("p/README.md"), ("c"))]
      ("p") ("Ann") ("mit") ("demo") ["Python"] (fun _ => none)
      (fun _ => none)).2.1 (by decide)⟩,
   ⟨by decide,
    (C9_writers_never_overwrite [(("p/LICENSE"), ("b")), (("p/README.md"), ("c"))]
      ("p") ("Ann") ("mit") ("demo") ["Python"] (fun _ => none)
      (fun _ => none)).2.2 (by decide)⟩⟩

/-! ## Claim C10 -/

/-- C10 counterexample: a commit message containing a single double-quote
character, passed through `commit_changes`, yields the command string
`git commit -m """` whose tokenization raises `ValueError` inside
`shlex.split`; `run_command` catches only `CalledProcessError`, so the
exception propagates to the caller instead of a boolean being returned —
refuting the claim that `run_command` never propagates an exception. -/
theorem C10_counterexample_quote_in_message :
    Proc.run_command (fun _ => Proc.SpawnOutcome.exits 0)
      (Proc.PyCmd.str (Proc.commit_cmd (String.mk [Proc.dq]) false))
      = Except.error (Proc.PyExn.valueError ("No closing quotation")) := by
  rfl

/-- C10 amended: whenever the command tokenizes successfully,
`run_command` returns `True` exactly on exit status 0 and `False` exactly
on a nonzero exit status — `CalledProcessError` is caught and never
propagates — but a missing executable propagates `FileNotFoundError`, and
(per the counterexample) a string command that fails to tokenize
propagates `ValueError`. -/
theorem C10_amended_run_command_result
    (spawn : List String → Proc.SpawnOutcome) (cmd : Proc.PyCmd)
    (toks : List String) (h : Proc.pyTokens cmd = Except.ok toks) :
    (Proc.run_command spawn cmd = Except.ok true ↔
      spawn toks = Proc.SpawnOutcome.exits 0)
    ∧ (Proc.run_command spawn cmd = Except.ok false ↔
      ∃ n, spawn toks = Proc.SpawnOutcome.exits (n + 1))
    ∧ (Proc.run_command spawn cmd = Except.error Proc.PyExn.fileNotFoundError ↔
      spawn toks = Proc.SpawnOutcome.execMissing)
    ∧ Proc.run_command spawn cmd ≠ Except.error Proc.PyExn.calledProcessError := by
  unfold Proc.run_command
  rw [h]
  match hs : spawn toks with
  | .exits 0 => simp [hs]
  | .exits (n + 1) => simp [hs]
  | .execMissing => simp [hs]

/-- C10 amended, witness: `git init` tokenizes to `[git, init]`, and with
a process that exits 1 the result is `False` (an exit `n + 1` exists). -/
theorem C10_amended_witness :
    Proc.pyTokens (Proc.PyCmd.str ("git init")) = Except.ok ["git", "init"]
    ∧ (Proc.run_command (fun _ => Proc.SpawnOutcome.exits 1)
          (Proc.PyCmd.str ("git init")) = Except.ok false ↔
        ∃ n, (fun _ : List String => Proc.SpawnOutcome.exits 1) ["git", "init"]
          = Proc.SpawnOutcome.exits (n + 1)) :=
  ⟨by rfl,
   (C10_amended_run_command_result (fun _ => Proc.SpawnOutcome.exits 1)
     (Proc.PyCmd.str ("git init")) ["git", "init"] (by rfl)).2.1⟩

/-! ## Claim C6 -/

theorem setup_branches_script_no_bindseed (m d st : String) (fs : List String) :
    ∀ c ∈ setup_branches_script m d st fs, isBindSeedCmd c = false := by
  intro c hc
  simp only [setup_branches_script, List.append_assoc, List.mem_append,
    List.mem_cons, List.not_mem_nil, or_false] at hc
  rcases hc with (h | h | h | h | h | h) | h | h
  all_goals first
    | (subst h; rfl)
    | (rcases feature_pairs_mem d _ fs h with h2 | ⟨f, h2⟩ <;> subst h2 <;> rfl)

theorem isForcePush_eq_false_of_bindseed {c : GitCmd}
    (h : isBindSeedCmd c = false) : isForcePush c = false := by
  cases c with
  | push b f => cases f <;> simp_all [isBindSeedCmd, isForcePush]
  | _ => rfl

/-- C6: with a remote URL, setup issues — right after the three commands
that initialize the repository and give `main` its initial empty commit,
at which point `main` is the only branch, holds zero tracked files and is
checked out — exactly `git remote add origin <url>`, the force push of
`main`, and `git fetch origin`, in that order; the force push of `main`
is the only force-mode push of the whole setup trace; and with no remote
URL none of the three bind-and-seed commands is ever issued. -/
theorem C6_bind_and_seed_exact (feature_branches : List String) (u : String) :
    (∃ tl, (setup_project (some u) ("main") ("dev") ("staging")
        feature_branches freshState).trace
      = [GitCmd.init, GitCmd.checkoutNew ("main"),
         GitCmd.commit ("Initial empty commit") true,
         GitCmd.remoteAdd u, GitCmd.push ("main") true, GitCmd.fetchOrigin] ++ tl)
    ∧ ((execSeq [GitCmd.init, GitCmd.checkoutNew ("main"),
          GitCmd.commit ("Initial empty commit") true] freshState).state.branches
        = [("main")]
      ∧ trackedOf (execSeq [GitCmd.init, GitCmd.checkoutNew ("main"),
          GitCmd.commit ("Initial empty commit") true] freshState).state ("main") = []
      ∧ (execSeq [GitCmd.init, GitCmd.checkoutNew ("main"),
          GitCmd.commit ("Initial empty commit") true] freshState).state.current
        = some ("main"))
    ∧ (setup_project (some u) ("main") ("dev") ("staging")
        feature_branches freshState).trace.filter isForcePush
      = [GitCmd.push ("main") true]
    ∧ (setup_project none ("main") ("dev") ("staging")
        feature_branches freshState).trace.filter isBindSeedCmd = [] := by
  have hscript : setup_project_script (some u) ("main") ("dev") ("staging")
      feature_branches
      = [GitCmd.init, GitCmd.checkoutNew ("main"),
         GitCmd.commit ("Initial empty commit") true,
         GitCmd.remoteAdd u, GitCmd.push ("main") true, GitCmd.fetchOrigin]
        ++ setup_branches_script ("main") ("dev") ("staging") feature_branches := by
    simp [setup_project_script, remote_seed_script]
  have h6 : execSeq [GitCmd.init, GitCmd.checkoutNew ("main"),
      GitCmd.commit ("Initial empty commit") true,
      GitCmd.remoteAdd u, GitCmd.push ("main") true, GitCmd.fetchOrigin] freshState
      = ⟨true,
         { initialized := true, branches := [("main")], current := some ("main"),
           tracked := [(("main"), [])], untracked := [], staged := [],
           remote := some u },
         [GitCmd.init, GitCmd.checkoutNew ("main"),
          GitCmd.commit ("Initial empty commit") true,
          GitCmd.remoteAdd u, GitCmd.push ("main") true, GitCmd.fetchOrigin]⟩ := rfl
  have htr : (setup_project (some u) ("main") ("dev") ("staging")
      feature_branches freshState).trace
      = [GitCmd.init, GitCmd.checkoutNew ("main"),
         GitCmd.commit ("Initial empty commit") true,
         GitCmd.remoteAdd u, GitCmd.push ("main") true, GitCmd.fetchOrigin]
        ++ (execSeq (setup_branches_script ("main") ("dev") ("staging")
            feature_branches)
          { initialized := true, branches := [("main")], current := some ("main"),
            tracked := [(("main"), [])], untracked := [], staged := [],
            remote := some u }).trace := by
    rw [setup_project_eq, hscript, execSeq_append, h6, andThen_of_ok _ rfl]
  have hscript0 : setup_project_script none ("main") ("dev") ("staging")
      feature_branches
      = [GitCmd.init, GitCmd.checkoutNew ("main"),
         GitCmd.commit ("Initial empty commit") true]
        ++ setup_branches_script ("main") ("dev") ("staging") feature_branches := by
    simp [setup_project_script, remote_seed_script]
  have h3 : execSeq [GitCmd.init, GitCmd.checkoutNew ("main"),
      GitCmd.commit ("Initial empty commit") true] freshState
      = ⟨true,
         { initialized := true, branches := [("main")], current := some ("main"),
           tracked := [(("main"), [])], untracked := [], staged := [],
           remote := none },
         [GitCmd.init, GitCmd.checkoutNew ("main"),
          GitCmd.commit ("Initial empty commit") true]⟩ := rfl
  have htr0 : (setup_project none ("main") ("dev") ("staging")
      feature_branches freshState).trace
      = [GitCmd.init, GitCmd.checkoutNew ("main"),
         GitCmd.commit ("Initial empty commit") true]
        ++ (execSeq (setup_branches_script ("main") ("dev") ("staging")
            feature_branches)
          { initialized := true, branches := [("main")], current := some ("main"),
            tracked := [(("main"), [])], untracked := [], staged := [],
            remote := none }).trace := by
    rw [setup_project_eq, hscript0, execSeq_append, h3, andThen_of_ok _ rfl]
  refine ⟨⟨_, htr⟩, ⟨rfl, rfl, rfl⟩, ?_, ?_⟩
  · rw [htr, List.filter_append]
    have htl : ∀ c ∈ (execSeq (setup_branches_script ("main") ("dev") ("staging")
        feature_branches)
        { initialized := true, branches := [("main")], current := some ("main"),
          tracked := [(("main"), [])], untracked := [], staged := [],
          remote := some u }).trace, ¬ isForcePush c = true := by
      intro c hc
      simp only [Bool.not_eq_true]
      exact isForcePush_eq_false_of_bindseed
        (setup_branches_script_no_bindseed ("main") ("dev") ("staging")
          feature_branches c (execSeq_trace_mem hc))
    rw [List.filter_eq_nil_iff.mpr htl]
    rfl
  · rw [htr0, List.filter_append]
    have htl : ∀ c ∈ (execSeq (setup_branches_script ("main") ("dev") ("staging")
        feature_branches)
        { initialized := true, branches := [("main")], current := some ("main"),
          tracked := [(("main"), [])], untracked := [], staged := [],
          remote := none }).trace, ¬ isBindSeedCmd c = true := by
      intro c hc
      simp only [Bool.not_eq_true]
      exact setup_branches_script_no_bindseed ("main") ("dev") ("staging")
        feature_branches c (execSeq_trace_mem hc)
    rw [List.filter_eq_nil_iff.mpr htl]
    rfl

/-! ## Claim C3: helper lemmas -/

/-- If the feature-branch creation loop of setup succeeds, none of the
feature branches existed when the loop started (each `git checkout -b`
demands a fresh name). -/
theorem feature_pairs_ok_not_mem (d : String) :
    ∀ (fs : List String) (s : RepoState),
      (execSeq (feature_pairs_script d fs) s).ok = true →
      ∀ f ∈ fs, f ∉ s.branches := by
  intro fs
  induction fs with
  | nil => intro s _ f hf; simp at hf
  | cons f0 rest ih =>
    intro s h g hg
    simp only [feature_pairs_script] at h
    rw [execSeq_cons] at h
    have h1 := ((andThen_ok_iff _ _).mp h).1
    have h2 := ((andThen_ok_iff _ _).mp h).2
    rcases runCmd_checkout_cases d s with hc | hc
    · have hst : (run_command (GitCmd.checkout d) s).state
          = { s with current := some d } := by
        simp [run_command, hc]
      rw [hst, execSeq_cons] at h2
      have h3 := ((andThen_ok_iff _ _).mp h2).1
      have h4 := ((andThen_ok_iff _ _).mp h2).2
      rcases runCmd_checkoutNew_cases f0 { s with current := some d } with
        ⟨hn, hnm⟩ | hn
      · have hst2 : (run_command (GitCmd.checkoutNew f0)
            { s with current := some d }).state
            = { s with branches := s.branches ++ [f0],
                       tracked := setTracked f0
                         (trackedOfCur { s with current := some d }) s.tracked,
                       current := some f0 } := by
          simp [run_command, hn]
        rw [hst2] at h4
        rcases List.mem_cons.mp hg with rfl | hgrest
        · exact hnm
        · have hrest := ih _ h4 g hgrest
          intro hgs
          exact hrest (by simp [hgs])
      · simp [run_command, hn] at h3
    · simp [run_command, hc] at h1

/-- A successful command sequence ending in `git checkout b` leaves `b`
checked out. -/
theorem execSeq_ok_last_checkout (cs : List GitCmd) (b : String)
    (s : RepoState)
    (h : (execSeq (cs ++ [GitCmd.checkout b]) s).ok = true) :
    (execSeq (cs ++ [GitCmd.checkout b]) s).state.current = some b := by
  rw [execSeq_append] at h ⊢
  have hk := ((andThen_ok_iff _ _).mp h).2
  rw [andThen_state_of_ok h]
  rcases runCmd_checkout_cases b (execSeq cs s).state with hc | hc
  · simp [execSeq, hc]
  · simp [execSeq, hc] at hk

/-- `trackedOfCur` ignores the untracked working set. -/
theorem trackedOfCur_set_untracked (s : RepoState) (x : List String) :
    trackedOfCur { s with untracked := x } = trackedOfCur s := rfl

/-- Between the phases, on a state whose working set is empty and whose
checked-out branch has no committed file, the boilerplate phase writes
exactly the three boilerplate files. -/
theorem writeBoilerplate_clean (s : RepoState) (hu : s.untracked = [])
    (hc : trackedOfCur s = []) :
    writeBoilerplate s
      = ({ s with untracked := boilerplateFiles }, boilerplateFiles) := by
  simp [writeBoilerplate, writeIfAbsent, workdir, trackedOfCur_set_untracked,
    hu, hc, boilerplateFiles]

theorem run_command_of_runCmd {c : GitCmd} {s t : RepoState} {bv : Bool}
    (h : runCmd c s = (bv, t)) : run_command c s = ⟨bv, t, [c]⟩ := by
  simp [run_command, h]

theorem finalize_loop_eq (dev_branch : String) :
    ∀ (fs : List String) (s : RepoState),
      finalize_loop dev_branch fs s =
        execSeq (finalize_loop_script dev_branch fs) s := by
  intro fs
  induction fs with
  | nil => intro s; rfl
  | cons f rest ih =>
    intro s
    simp only [finalize_loop, finalize_loop_script, execSeq_cons, ih,
      push_branch]

/-- Every git command except branch creation can only grow a branch's
tracked-file list (commits and merges append; everything else leaves it
unchanged). -/
theorem runCmd_tracked_mono (c : GitCmd) (t : RepoState) (b : String)
    (hc : ∀ b2, c ≠ GitCmd.checkoutNew b2) :
    trackedOf t b ⊆ trackedOf (runCmd c t).2 b := by
  cases c with
  | checkoutNew b2 => exact absurd rfl (hc b2)
  | init => exact fun a ha => ha
  | checkout b2 =>
    rcases runCmd_checkout_cases b2 t with h | h <;> rw [h] <;>
      exact fun a ha => ha
  | addAll =>
    rcases runCmd_addAll_cases t with h | h <;> rw [h] <;>
      exact fun a ha => ha
  | commit m ae =>
    rcases runCmd_commit_cases m ae t with ⟨b2, _, h⟩ | h <;> rw [h]
    · by_cases hb : b = b2
      · subst hb
        intro a ha
        simp only [trackedOf, lookup_setTracked_self, Option.getD_some]
        exact List.mem_append_left _ ha
      · simp only [trackedOf]
        rw [lookup_setTracked_ne b2 b _ hb]
        exact fun a ha => ha
    · exact fun a ha => ha
  | merge b2 =>
    rcases runCmd_merge_cases b2 t with ⟨c2, _, h⟩ | h <;> rw [h]
    · by_cases hb : b = c2
      · subst hb
        intro a ha
        simp only [trackedOf, lookup_setTracked_self, Option.getD_some]
        exact List.mem_append_left _ ha
      · simp only [trackedOf]
        rw [lookup_setTracked_ne c2 b _ hb]
        exact fun a ha => ha
    · exact fun a ha => ha
  | remoteAdd u =>
    simp only [runCmd]
    split <;> exact fun a ha => ha
  | fetchOrigin =>
    simp only [runCmd]
    split <;> exact fun a ha => ha
  | push b2 f =>
    rw [runCmd_push_snd]
    exact fun a ha => ha

theorem execSeq_tracked_mono (b : String) :
    ∀ (cs : List GitCmd) (s : RepoState),
      (∀ c ∈ cs, ∀ b2, c ≠ GitCmd.checkoutNew b2) →
      trackedOf s b ⊆ trackedOf (execSeq cs s).state b := by
  intro cs
  induction cs with
  | nil => intro s _; exact fun a ha => ha
  | cons c cs ih =>
    intro s hno
    by_cases hc : (runCmd c s).1 = true <;> simp [execSeq, hc]
    · exact (runCmd_tracked_mono c s b (hno c (List.mem_cons_self _ _))).trans
        (ih _ fun c2 h2 => hno c2 (List.mem_cons_of_mem _ h2))
    · exact runCmd_tracked_mono c s b (hno c (List.mem_cons_self _ _))

theorem finalize_loop_script_no_checkoutNew (dev_branch : String) :
    ∀ fs, ∀ c ∈ finalize_loop_script dev_branch fs,
      ∀ b2, c ≠ GitCmd.checkoutNew b2 := by
  intro fs
  induction fs with
  | nil => intro c hc; simp [finalize_loop_script] at hc
  | cons f rest ih =>
    intro c hc b2
    simp only [finalize_loop_script, List.mem_cons] at hc
    rcases hc with h | h | h | h
    · subst h; intro he; cases he
    · subst h; intro he; cases he
    · subst h; intro he; cases he
    · exact ih c h b2

/-- The finalize propagation loop only ever appends to a branch's tracked
files, so any tracked file stays tracked through it. -/
theorem finalize_loop_tracked_mono (dev_branch : String) (fs : List String)
    (s : RepoState) (b : String) :
    trackedOf s b ⊆ trackedOf (finalize_loop dev_branch fs s).state b := by
  rw [finalize_loop_eq]
  exact execSeq_tracked_mono b _ s (finalize_loop_script_no_checkoutNew _ fs)

/-- Invariant of the finalize propagation loop (feature names never
colliding with `main`/`staging`, as setup success guarantees): `main` and
`staging` stay empty, `dev` keeps its content `D`, and on success every
feature branch has received `D` via the merge of `dev`. -/
theorem finalize_loop_inv (D : List String) :
    ∀ (fs : List String) (s : RepoState),
      ("main") ∉ fs → ("staging") ∉ fs →
      trackedOf s ("main") = [] → trackedOf s ("staging") = [] →
      D ⊆ trackedOf s ("dev") →
      (trackedOf (finalize_loop ("dev") fs s).state ("main") = []
      ∧ trackedOf (finalize_loop ("dev") fs s).state ("staging") = []
      ∧ D ⊆ trackedOf (finalize_loop ("dev") fs s).state ("dev")
      ∧ ((finalize_loop ("dev") fs s).ok = true →
          ∀ f ∈ fs, D ⊆ trackedOf (finalize_loop ("dev") fs s).state f)) := by
  intro fs
  induction fs with
  | nil =>
    intro s _ _ h1 h2 h3
    exact ⟨h1, h2, h3, fun _ f hf => absurd hf (List.not_mem_nil f)⟩
  | cons f0 rest ih =>
    intro s hm hstg h1 h2 h3
    have hm2 : ("main") ∉ rest := fun hx => hm (List.mem_cons_of_mem _ hx)
    have hstg2 : ("staging") ∉ rest := fun hx => hstg (List.mem_cons_of_mem _ hx)
    have hf0m : ("main") ≠ f0 := fun he => hm (by rw [he]; exact List.mem_cons_self _ _)
    have hf0s : ("staging") ≠ f0 := fun he => hstg (by rw [he]; exact List.mem_cons_self _ _)
    simp only [finalize_loop]
    rcases runCmd_checkout_cases f0 s with hc | hc
    · obtain ⟨t1, ht1, ht1m, ht1s, ht1d, ht1cur⟩ :
        ∃ t1, runCmd (GitCmd.checkout f0) s = (true, t1)
          ∧ trackedOf t1 ("main") = [] ∧ trackedOf t1 ("staging") = []
          ∧ D ⊆ trackedOf t1 ("dev") ∧ t1.current = some f0 :=
        ⟨_, hc, h1, h2, h3, rfl⟩
      rw [run_command_of_runCmd ht1, andThen_of_ok _ rfl]
      dsimp only
      rcases runCmd_merge_cases2 ("dev") f0 t1 ht1cur with hmg | hmg
      · obtain ⟨t2, ht2, ht2m, ht2s, ht2d, ht2f0⟩ :
          ∃ t2, runCmd (GitCmd.merge ("dev")) t1 = (true, t2)
            ∧ trackedOf t2 ("main") = [] ∧ trackedOf t2 ("staging") = []
            ∧ D ⊆ trackedOf t2 ("dev") ∧ D ⊆ trackedOf t2 f0 := by
          refine ⟨_, hmg, ?_, ?_, ?_, ?_⟩
          · simp only [trackedOf]
            rw [lookup_setTracked_ne f0 _ _ hf0m]
            exact ht1m
          · simp only [trackedOf]
            rw [lookup_setTracked_ne f0 _ _ hf0s]
            exact ht1s
          · by_cases hfd : f0 = ("dev")
            · subst hfd
              intro a ha
              simp only [trackedOf, lookup_setTracked_self, Option.getD_some]
              exact List.mem_append_left _ (ht1d ha)
            · simp only [trackedOf]
              rw [lookup_setTracked_ne f0 _ _ fun he2 => hfd he2.symm]
              exact ht1d
          · intro a ha
            simp only [trackedOf, lookup_setTracked_self, Option.getD_some]
            exact List.mem_append_right _ (ht1d ha)
        rw [run_command_of_runCmd ht2, andThen_of_ok _ rfl]
        dsimp only
        by_cases hp : (runCmd (GitCmd.push f0 false) t2).1 = true
        · have hpe : runCmd (GitCmd.push f0 false) t2 = (true, t2) :=
            Prod.ext hp (runCmd_push_snd f0 false t2)
          rw [push_branch, run_command_of_runCmd hpe, andThen_of_ok _ rfl]
          dsimp only
          obtain ⟨r1, r2, r3, r4⟩ := ih t2 hm2 hstg2 ht2m ht2s ht2d
          refine ⟨r1, r2, r3, fun hok g hg => ?_⟩
          rcases List.mem_cons.mp hg with rfl | hgr
          · exact ht2f0.trans (finalize_loop_tracked_mono ("dev") rest t2 g)
          · exact r4 hok g hgr
        · have hpe : runCmd (GitCmd.push f0 false) t2 = (false, t2) :=
            Prod.ext (by simpa using hp) (runCmd_push_snd f0 false t2)
          rw [push_branch, run_command_of_runCmd hpe, andThen_of_fail _ rfl]
          exact ⟨ht2m, ht2s, ht2d, fun hok => by simp at hok⟩
      · rw [run_command_of_runCmd hmg, andThen_of_fail _ rfl]
        exact ⟨ht1m, ht1s, ht1d, fun hok => by simp at hok⟩
    · rw [run_command_of_runCmd hc, andThen_of_fail _ rfl]
      exact ⟨h1, h2, h3, fun hok => by simp at hok⟩

/-- A successful `finalize_project` with a remote, started on the active
branch `dev` of an all-empty repository whose feature names avoid
`main`/`staging`: it leaves `main` and `staging` with zero tracked files,
gives `dev` exactly the staged working set, and propagates that set into
every feature branch. -/
theorem finalize_project_some_ok (u : String) (fs : List String)
    (s : RepoState)
    (hok : (finalize_project (some u) ("dev") fs s).ok = true)
    (hm : ("main") ∉ fs) (hst : ("staging") ∉ fs)
    (hcur : s.current = some ("dev"))
    (htm : trackedOf s ("main") = []) (hts : trackedOf s ("staging") = [])
    (htd : trackedOf s ("dev") = []) (hstg : s.staged = []) :
    trackedOf (finalize_project (some u) ("dev") fs s).state ("main") = []
    ∧ trackedOf (finalize_project (some u) ("dev") fs s).state ("staging") = []
    ∧ s.untracked ⊆
        trackedOf (finalize_project (some u) ("dev") fs s).state ("dev")
    ∧ ∀ f ∈ fs, s.untracked ⊆
        trackedOf (finalize_project (some u) ("dev") fs s).state f := by
  rcases runCmd_addAll_cases s with ha | ha
  · obtain ⟨t1, ht1, h1m, h1s, h1d, h1cur, h1stg⟩ :
      ∃ t1, runCmd GitCmd.addAll s = (true, t1)
        ∧ trackedOf t1 ("main") = [] ∧ trackedOf t1 ("staging") = []
        ∧ trackedOf t1 ("dev") = [] ∧ t1.current = some ("dev")
        ∧ t1.staged = s.untracked :=
      ⟨_, ha, htm, hts, htd, hcur, by rw [hstg]; exact List.nil_append _⟩
    rw [finalize_project, add_files, run_command_of_runCmd ht1,
      andThen_of_ok _ rfl] at hok ⊢
    dsimp only at hok ⊢
    rcases runCmd_commit_cases2 ("Initial project setup on dev") false t1
        ("dev") h1cur with hcm | hcm
    · obtain ⟨t2, ht2, h2m, h2s, h2d⟩ :
        ∃ t2, runCmd (GitCmd.commit ("Initial project setup on dev") false) t1
            = (true, t2)
          ∧ trackedOf t2 ("main") = [] ∧ trackedOf t2 ("staging") = []
          ∧ trackedOf t2 ("dev") = s.untracked := by
        refine ⟨_, hcm, ?_, ?_, ?_⟩
        · simp only [trackedOf]
          rw [lookup_setTracked_ne ("dev") _ _ (by decide : ("main") ≠ ("dev"))]
          exact h1m
        · simp only [trackedOf]
          rw [lookup_setTracked_ne ("dev") _ _
            (by decide : ("staging") ≠ ("dev"))]
          exact h1s
        · have h1d2 : (List.lookup ("dev") t1.tracked).getD [] = [] := h1d
          simp only [trackedOf]
          rw [lookup_setTracked_self, Option.getD_some, h1d2, h1stg]
          exact List.nil_append _
      rw [commit_changes, run_command_of_runCmd ht2,
        andThen_of_ok _ rfl] at hok ⊢
      dsimp only at hok ⊢
      by_cases hp : (runCmd (GitCmd.push ("dev") false) t2).1 = true
      · have hpe : runCmd (GitCmd.push ("dev") false) t2 = (true, t2) :=
          Prod.ext hp (runCmd_push_snd _ _ _)
        simp only [push_dev_if, push_branch] at hok ⊢
        rw [run_command_of_runCmd hpe, andThen_of_ok _ rfl] at hok ⊢
        dsimp only at hok ⊢
        simp only [propagate_if] at hok ⊢
        have hloopok : (finalize_loop ("dev") fs t2).ok = true :=
          ((andThen_ok_iff _ _).mp hok).1
        have hckok : (run_command (GitCmd.checkout ("dev"))
            (finalize_loop ("dev") fs t2).state).ok = true :=
          ((andThen_ok_iff _ _).mp hok).2
        rw [andThen_state_of_ok hok]
        obtain ⟨r1, r2, r3, r4⟩ := finalize_loop_inv s.untracked fs t2 hm hst
          h2m h2s (by rw [h2d]; exact List.Subset.refl _)
        rcases runCmd_checkout_cases ("dev") (finalize_loop ("dev") fs t2).state
          with hck | hck
        · rw [run_command_of_runCmd hck]
          dsimp only
          exact ⟨r1, r2, r3, fun f hf => r4 hloopok f hf⟩
        · rw [run_command_of_runCmd hck] at hckok
          simp at hckok
      · have hpe : runCmd (GitCmd.push ("dev") false) t2 = (false, t2) :=
          Prod.ext (by simpa using hp) (runCmd_push_snd _ _ _)
        simp only [push_dev_if, push_branch] at hok
        rw [run_command_of_runCmd hpe, andThen_of_fail _ rfl] at hok
        simp at hok
    · rw [commit_changes, run_command_of_runCmd hcm,
        andThen_of_fail _ rfl] at hok
      simp at hok
  · rw [finalize_project, add_files, run_command_of_runCmd ha,
      andThen_of_fail _ rfl] at hok
    simp at hok

theorem trackedOf_set_untracked (s : RepoState) (x : List String)
    (b : String) :
    trackedOf { s with untracked := x } b = trackedOf s b := rfl

theorem current_set_untracked (s : RepoState) (x : List String) :
    ({ s with untracked := x }).current = s.current := rfl

theorem staged_set_untracked (s : RepoState) (x : List String) :
    ({ s with untracked := x }).staged = s.staged := rfl

/-- Unfolding of `create_project` when setup succeeded: the boilerplate
files are written and `finalize_project` runs on the resulting state. -/
theorem create_project_of_setup_ok (repo_url : Option String)
    (fs : List String) (s : RepoState)
    (h : (setup_project repo_url ("main") ("dev") ("staging") fs s).ok = true) :
    create_project repo_url fs s =
      ⟨(finalize_project repo_url ("dev") fs
          (writeBoilerplate (setup_project repo_url ("main") ("dev")
            ("staging") fs s).state).1).ok,
       (finalize_project repo_url ("dev") fs
          (writeBoilerplate (setup_project repo_url ("main") ("dev")
            ("staging") fs s).state).1).state,
       (setup_project repo_url ("main") ("dev") ("staging") fs s).trace ++
         (finalize_project repo_url ("dev") fs
           (writeBoilerplate (setup_project repo_url ("main") ("dev")
             ("staging") fs s).state).1).trace,
       (writeBoilerplate (setup_project repo_url ("main") ("dev")
         ("staging") fs s).state).2,
       true⟩ := by
  simp [create_project, h]

set_option maxHeartbeats 2000000 in
/-- C3: whenever the full workflow (`setup_project`, boilerplate writing,
`finalize_project`, as composed by `create_project`) completes
successfully — for every caller-supplied feature-branch list, with or
without a remote (without one, success is unreachable since setup fails
at the unconditional staging push) — `main` and `staging` hold zero
tracked project files while `dev` and every feature branch contain the
full boilerplate set {.gitignore, LICENSE, README.md}. -/
theorem C3_branch_content_invariant (repo_url : Option String)
    (feature_branches : List String)
    (h : (create_project repo_url feature_branches freshState).ok = true) :
    trackedOf (create_project repo_url feature_branches freshState).state
      ("main") = []
    ∧ trackedOf (create_project repo_url feature_branches freshState).state
      ("staging") = []
    ∧ boilerplateFiles ⊆
        trackedOf (create_project repo_url feature_branches freshState).state
          ("dev")
    ∧ ∀ f ∈ feature_branches, boilerplateFiles ⊆
        trackedOf (create_project repo_url feature_branches freshState).state f := by
  cases repo_url with
  | none =>
    exfalso
    have hfail : (setup_project none ("main") ("dev") ("staging")
        feature_branches freshState).ok = false := by
      have hsc : setup_project_script none ("main") ("dev") ("staging")
          feature_branches
          = [GitCmd.init, GitCmd.checkoutNew ("main"),
             GitCmd.commit ("Initial empty commit") true,
             GitCmd.checkout ("main"), GitCmd.checkoutNew ("dev"),
             GitCmd.checkout ("main"), GitCmd.checkoutNew ("staging"),
             GitCmd.commit ("Initial empty commit on staging") true,
             GitCmd.push ("staging") false]
            ++ (feature_pairs_script ("dev") feature_branches
                ++ [GitCmd.checkout ("dev")]) := by
        simp [setup_project_script, remote_seed_script, setup_branches_script]
      rw [setup_project_eq, hsc, execSeq_append, andThen_of_fail _ (by rfl)]
      rfl
    simp [create_project, hfail] at h
  | some u =>
    by_cases hr1 : (setup_project (some u) ("main") ("dev") ("staging")
        feature_branches freshState).ok = true
    · have hsc : setup_project_script (some u) ("main") ("dev") ("staging")
          feature_branches
          = [GitCmd.init, GitCmd.checkoutNew ("main"),
             GitCmd.commit ("Initial empty commit") true,
             GitCmd.remoteAdd u, GitCmd.push ("main") true, GitCmd.fetchOrigin,
             GitCmd.checkout ("main"), GitCmd.checkoutNew ("dev"),
             GitCmd.checkout ("main"), GitCmd.checkoutNew ("staging"),
             GitCmd.commit ("Initial empty commit on staging") true,
             GitCmd.push ("staging") false]
            ++ (feature_pairs_script ("dev") feature_branches
                ++ [GitCmd.checkout ("dev")]) := by
        simp [setup_project_script, remote_seed_script, setup_branches_script]
      have h12 : execSeq [GitCmd.init, GitCmd.checkoutNew ("main"),
          GitCmd.commit ("Initial empty commit") true,
          GitCmd.remoteAdd u, GitCmd.push ("main") true, GitCmd.fetchOrigin,
          GitCmd.checkout ("main"), GitCmd.checkoutNew ("dev"),
          GitCmd.checkout ("main"), GitCmd.checkoutNew ("staging"),
          GitCmd.commit ("Initial empty commit on staging") true,
          GitCmd.push ("staging") false] freshState
          = ⟨true, seededState u,
             [GitCmd.init, GitCmd.checkoutNew ("main"),
              GitCmd.commit ("Initial empty commit") true,
              GitCmd.remoteAdd u, GitCmd.push ("main") true, GitCmd.fetchOrigin,
              GitCmd.checkout ("main"), GitCmd.checkoutNew ("dev"),
              GitCmd.checkout ("main"), GitCmd.checkoutNew ("staging"),
              GitCmd.commit ("Initial empty commit on staging") true,
              GitCmd.push ("staging") false]⟩ := rfl
      have hpairs : (execSeq (feature_pairs_script ("dev") feature_branches)
          (seededState u)).ok = true := by
        have h2 := hr1
        rw [setup_project_eq, hsc, execSeq_append, h12,
          andThen_of_ok _ rfl] at h2
        dsimp only at h2
        rw [execSeq_append] at h2
        exact ((andThen_ok_iff _ _).mp h2).1
      have hnm := feature_pairs_ok_not_mem ("dev") feature_branches
        (seededState u) hpairs
      have hmainnm : ("main") ∉ feature_branches := fun hx =>
        (hnm _ hx) (by simp [seededState])
      have hstagnm : ("staging") ∉ feature_branches := fun hx =>
        (hnm _ hx) (by simp [seededState])
      obtain ⟨hacT, hacS, hacU⟩ : allClean (setup_project (some u) ("main")
          ("dev") ("staging") feature_branches freshState).state := by
        rw [setup_project_eq]
        exact execSeq_inv allClean allClean_step _ _ ⟨fun b => rfl, rfl, rfl⟩
      have hcur : (setup_project (some u) ("main") ("dev") ("staging")
          feature_branches freshState).state.current = some ("dev") := by
        have hsc2 : setup_project_script (some u) ("main") ("dev") ("staging")
            feature_branches
            = ([GitCmd.init, GitCmd.checkoutNew ("main"),
               GitCmd.commit ("Initial empty commit") true,
               GitCmd.remoteAdd u, GitCmd.push ("main") true,
               GitCmd.fetchOrigin,
               GitCmd.checkout ("main"), GitCmd.checkoutNew ("dev"),
               GitCmd.checkout ("main"), GitCmd.checkoutNew ("staging"),
               GitCmd.commit ("Initial empty commit on staging") true,
               GitCmd.push ("staging") false]
              ++ feature_pairs_script ("dev") feature_branches)
              ++ [GitCmd.checkout ("dev")] := by
          simp [setup_project_script, remote_seed_script, setup_branches_script]
        rw [setup_project_eq, hsc2]
        apply execSeq_ok_last_checkout
        rw [← hsc2, ← setup_project_eq]
        exact hr1
      have hwb := writeBoilerplate_clean (setup_project (some u) ("main")
          ("dev") ("staging") feature_branches freshState).state hacU
        (by unfold trackedOfCur; rw [hcur]; exact hacT ("dev"))
      rw [create_project_of_setup_ok (some u) feature_branches freshState hr1]
        at h ⊢
      rw [hwb] at h ⊢
      dsimp only at h ⊢
      exact finalize_project_some_ok u feature_branches _ h hmainnm hstagnm
        (by rw [current_set_untracked]; exact hcur)
        (by rw [trackedOf_set_untracked]; exact hacT _)
        (by rw [trackedOf_set_untracked]; exact hacT _)
        (by rw [trackedOf_set_untracked]; exact hacT _)
        (by rw [staged_set_untracked]; exact hacS)
    · exfalso
      have hr1f : (setup_project (some u) ("main") ("dev") ("staging")
          feature_branches freshState).ok = false := by
        revert hr1
        cases (setup_project (some u) ("main") ("dev") ("staging")
          feature_branches freshState).ok <;> simp
      simp [create_project, hr1f] at h

set_option maxHeartbeats 2000000 in
/-- C3 witness: a concrete full workflow with a remote and one feature
branch succeeds, with `main`/`staging` empty and the boilerplate set on
`dev` and on the feature branch. -/
theorem C3_witness :
    (create_project (some ("https://example.com/demo.git")) ["feature-x"]
      freshState).ok = true
    ∧ (trackedOf (create_project (some ("https://example.com/demo.git"))
        ["feature-x"] freshState).state ("main") = []
      ∧ trackedOf (create_project (some ("https://example.com/demo.git"))
        ["feature-x"] freshState).state ("staging") = []
      ∧ boilerplateFiles ⊆
          trackedOf (create_project (some ("https://example.com/demo.git"))
            ["feature-x"] freshState).state ("dev")
      ∧ ∀ f ∈ ["feature-x"], boilerplateFiles ⊆
          trackedOf (create_project (some ("https://example.com/demo.git"))
            ["feature-x"] freshState).state f) :=
  ⟨by decide,
   C3_branch_content_invariant (some ("https://example.com/demo.git"))
     ["feature-x"] (by decide)⟩

end CodeGenesis

